import Mathlib

/-!
# Release Content Pipeline — shallow embedding

This file embeds the string-processing core of the release-automation
repository: the Parser (`scripts/parse-release-data.js`), the Validator
(`scripts/validate-release.js`) and the Renderer (`ContentProcessor` in
`scripts/test-setup.js`).  Strings are modelled as `List Char` (one entry
per code point); the JavaScript regular expressions used by the code are
all of a few simple shapes (case-insensitive literal label followed by
`\s*([^\n]+)`, anchored token tests, global literal scans) and are
translated into explicit recursive functions with the same matching
semantics (leftmost match, greedy with backtracking where it matters).
-/

namespace ReleaseAutomation

/-- The ASCII apostrophe character (code point 39), spliced into the string
constants that contain one. -/
def apos : Char := Char.ofNat 39

/-- JavaScript `\s` character class, restricted to the ASCII whitespace
characters (space, tab, newline, carriage return, vertical tab, form feed). -/
def isSpace (c : Char) : Bool :=
  c = ' ' || c = '\t' || c = '\n' || c = '\r' || c = '\x0b' || c = '\x0c'

/-- Separator class of the Parser's email split `split(/[,\s]+/)`. -/
def isEmailSep (c : Char) : Bool :=
  c = ',' || isSpace c

/-- Lower-case a string the way `toLowerCase()` does on ASCII text. -/
def lowerStr (s : List Char) : List Char :=
  s.map Char.toLower

/-- `String.prototype.trim()`: strip whitespace from both ends. -/
def trimStr (s : List Char) : List Char :=
  ((s.dropWhile isSpace).reverse.dropWhile isSpace).reverse

/-- Accumulator state for `splitSeps`: `none` while inside a separator run,
`some cur` while building a token (characters in reverse). -/
def splitSepsAux (p : Char → Bool) (st : Option (List Char)) : List Char → List (List Char)
  | [] =>
    match st with
    | some cur => [cur.reverse]
    | none => [[]]
  | c :: cs =>
    if p c then
      match st with
      | some cur => cur.reverse :: splitSepsAux p none cs
      | none => splitSepsAux p none cs
    else
      match st with
      | some cur => splitSepsAux p (some (c :: cur)) cs
      | none => splitSepsAux p (some [c]) cs

/-- JavaScript `split` on a one-or-more character-class regex such as
`split(/[,\s]+/)` or `split(/\s+/)`: a run of separators is one cut, and a
leading or trailing run contributes an empty token. -/
def splitSeps (p : Char → Bool) (s : List Char) : List (List Char) :=
  splitSepsAux p (some []) s

/-- JavaScript `split` on a single literal character, e.g. `split(',')` or
`split(' ')`: every separator occurrence is a cut, empty tokens included. -/
def splitOnChar (sep : Char) : List Char → List (List Char)
  | [] => [[]]
  | c :: cs =>
    if c = sep then [] :: splitOnChar sep cs
    else
      match splitOnChar sep cs with
      | t :: ts => (c :: t) :: ts
      | [] => [[c]]

/-- JavaScript `Array.prototype.join(sep)`. -/
def joinSep (sep : List Char) : List (List Char) → List Char
  | [] => []
  | t :: ts =>
    match ts with
    | [] => t
    | _ :: _ => t ++ sep ++ joinSep sep ts

/-- Substring test: JavaScript `String.prototype.includes` / an unanchored
regex literal test. -/
def containsStr (needle : List Char) : List Char → Bool
  | [] => needle.isEmpty
  | c :: cs => needle.isPrefixOf (c :: cs) || containsStr needle cs

/-- Try to consume the (already lower-cased) literal `label` from the front
of `s`, comparing case-insensitively; return the rest of `s` on success. -/
def dropLabelCI : List Char → List Char → Option (List Char)
  | [], s => some s
  | _ :: _, [] => none
  | c :: cs, x :: xs => if x.toLower = c then dropLabelCI cs xs else none

/-- Matching of `\s*([^\n]+)` against `rest`, with the regex engine's greedy
backtracking: `\s*` first takes the maximal whitespace run; if the string
ends there, it gives characters back until `[^\n]+` can start on a
non-newline character.  Returns the captured group, or `none` when every
backtrack fails (i.e. `rest` is whitespace consisting only of newlines). -/
def captureAfterLabel (rest : List Char) : Option (List Char) :=
  match rest.dropWhile isSpace with
  | c :: cs => some ((c :: cs).takeWhile (fun d => d ≠ '\n'))
  | [] =>
    match rest.reverse.dropWhile (fun d => d = '\n') with
    | [] => none
    | c :: _ => some [c]

/-- One pattern of the label chains is a list of alternative literals in the
regex's backtracking order (e.g. `Jira Tickets?:` becomes
`["jira tickets:", "jira ticket:"]`).  Try each alternative at the current
position: the literal must match and `\s*([^\n]+)` must then succeed. -/
def tryAlts (alts : List (List Char)) (s : List Char) : Option (List Char) :=
  match alts with
  | [] => none
  | a :: more =>
    match dropLabelCI a s with
    | some rest =>
      match captureAfterLabel rest with
      | some cap => some cap
      | none => tryAlts more s
    | none => tryAlts more s

/-- Leftmost match of a case-insensitive pattern `Label\s*([^\n]+)` (with
`alts` the alternative spellings of `Label`) against `body`, as
`String.prototype.match` computes it: positions are tried left to right, and
a position where the label matches but the capture cannot be completed is
skipped, exactly like the regex engine. -/
def matchLabeled (alts : List (List Char)) : List Char → Option (List Char)
  | [] => none
  | c :: cs =>
    match tryAlts alts (c :: cs) with
    | some cap => some cap
    | none => matchLabeled alts cs

/-- The email format check `/^[^\s@]+@[^\s@]+\.[^\s@]+$/` shared by Parser
and Validator: no whitespace anywhere, exactly one `@`, a non-empty local
part, and after the `@` a dot that is neither the first nor the last
character of the domain part. -/
def isValidEmail (s : List Char) : Bool :=
  s.all (fun c => !isSpace c) &&
  s.count '@' == 1 &&
  (let a := s.takeWhile (fun c => c ≠ '@')
   let d := (s.dropWhile (fun c => c ≠ '@')).drop 1
   !a.isEmpty && !d.isEmpty && (d.drop 1).dropLast.contains '.')

/-- The Jira ticket format check `/^PDE-\d+$/` shared by Parser and
Validator: the literal prefix `PDE-` (case-sensitive) followed by one or
more decimal digits and nothing else. -/
def isValidJiraTicket (s : List Char) : Bool :=
  match s with
  | 'P' :: 'D' :: 'E' :: '-' :: ds => !ds.isEmpty && ds.all Char.isDigit
  | _ => false

/-! ## Parser (`scripts/parse-release-data.js`) -/

/-- The four email label patterns of `extractCustomerEmails`, in priority
order (each has a single spelling). -/
def emailPatterns : List (List (List Char)) :=
  [["customer email(s):".data],
   ["customer emails:".data],
   ["emails:".data],
   ["to:".data]]

/-- Post-processing of a matched email field: split on `[,\s]+`, trim each
entry, keep only the entries passing the email-format check. -/
def processEmails (cap : List Char) : List (List Char) :=
  ((splitSeps isEmailSep cap).map trimStr).filter isValidEmail

/-- The pattern loop of `extractCustomerEmails`: on a match whose filtered
entry list is non-empty, return the entries comma-joined; otherwise fall
through to the next pattern; `""` when the loop is exhausted. -/
def extractCustomerEmailsFrom : List (List (List Char)) → List Char → List Char
  | [], _ => []
  | alts :: more, body =>
    match matchLabeled alts body with
    | some cap =>
      let emails := processEmails cap
      if emails.isEmpty then extractCustomerEmailsFrom more body
      else joinSep [','] emails
    | none => extractCustomerEmailsFrom more body

/-- `extractCustomerEmails` of `scripts/parse-release-data.js`. -/
def extractCustomerEmails (body : List Char) : List Char :=
  extractCustomerEmailsFrom emailPatterns body

/-- The four ticket label patterns of `extractJiraTickets`, in priority
order; the optional `s?` of `Jira Tickets?:` / `Tickets?:` expands into two
alternatives in the regex's greedy order. -/
def ticketPatterns : List (List (List Char)) :=
  [["jira tickets:".data, "jira ticket:".data],
   ["related jira tickets:".data, "related jira ticket:".data],
   ["related work:".data],
   ["tickets:".data, "ticket:".data]]

/-- Post-processing of a matched ticket field: split on `\s+`, trim each
entry, keep only the entries passing the ticket-format check. -/
def processTickets (cap : List Char) : List (List Char) :=
  ((splitSeps isSpace cap).map trimStr).filter isValidJiraTicket

/-- One attempt of the global inline scan `/(PDE-\d+)/g` at the current
position: the literal `PDE-` followed by a maximal non-empty digit run. -/
def tryPDE : List Char → Option (List Char)
  | 'P' :: 'D' :: 'E' :: '-' :: rest =>
    let ds := rest.takeWhile Char.isDigit
    if ds.isEmpty then none else some ('P' :: 'D' :: 'E' :: '-' :: ds)
  | _ => none

/-- All matches of `/(PDE-\d+)/g` over the body, left to right.  (A match
can never start strictly inside another match — digits and `D`/`E`/`-` never
start one — so advancing one character at a time finds exactly the
non-overlapping matches `matchAll` returns.) -/
def scanInline : List Char → List (List Char)
  | [] => []
  | c :: cs =>
    match tryPDE (c :: cs) with
    | some tick => tick :: scanInline cs
    | none => scanInline cs

/-- The de-duplication `filter((ticket, index, arr) => arr.indexOf(ticket)
=== index)`: keep an occurrence only when its index is the index of the
first occurrence of that value. -/
def dedupFirst (l : List (List Char)) : List (List Char) :=
  ((l.enum.filter (fun p => l.indexOf p.2 == p.1)).map (fun p => p.2))

/-- The pattern loop of `extractJiraTickets`, falling through to the inline
scan (de-duplicated, space-joined) when no labeled pattern yields a
non-empty validated entry list. -/
def extractJiraTicketsFrom : List (List (List Char)) → List Char → List Char
  | [], body => joinSep [' '] (dedupFirst (scanInline body))
  | alts :: more, body =>
    match matchLabeled alts body with
    | some cap =>
      let tickets := processTickets cap
      if tickets.isEmpty then extractJiraTicketsFrom more body
      else joinSep [' '] tickets
    | none => extractJiraTicketsFrom more body

/-- `extractJiraTickets` of `scripts/parse-release-data.js`. -/
def extractJiraTickets (body : List Char) : List Char :=
  extractJiraTicketsFrom ticketPatterns body

/-- `determineReleaseType` of `scripts/parse-release-data.js`: an if/else
chain over the lower-cased title and body. -/
def determineReleaseType (titleRaw bodyRaw : List Char) : List Char :=
  let title := lowerStr titleRaw
  let body := lowerStr bodyRaw
  if containsStr "major".data title || containsStr "major release".data body then
    "major".data
  else if containsStr "minor".data title || containsStr "minor update".data body then
    "minor".data
  else if containsStr "bug".data title || containsStr "fix".data title
      || containsStr "bug fix".data body then
    "bugfix".data
  else if containsStr "doc".data title || containsStr "documentation".data title
      || containsStr "documentation".data body then
    "documentation".data
  else
    "update".data

/-- The four checklist markers shared by `hasFileAttachments` and
`generateFileList`, lower-cased (the text after `\[[ x]\] `). -/
def fileMarkers : List (List Char) :=
  ["updated drawings (pdf)".data,
   "3d models (step/solidworks)".data,
   "documentation updates".data,
   "test results".data]

/-- Occurrence of the checkbox regex `\[[ x]\] Marker` (case-insensitive) in
the lower-cased body: the character class `[ x]` accepts a space (unchecked
box) as well as an `x` (checked box). -/
def checkboxPresent (marker : List Char) (bl : List Char) : Bool :=
  containsStr ('[' :: ' ' :: ']' :: ' ' :: marker) bl ||
  containsStr ('[' :: 'x' :: ']' :: ' ' :: marker) bl

/-- `hasFileAttachments` of `scripts/parse-release-data.js`: some of the six
patterns (four checkbox markers plus the two generic labels) matches. -/
def hasFileAttachments (body : List Char) : Bool :=
  let bl := lowerStr body
  (fileMarkers.any (fun m => checkboxPresent m bl)) ||
  containsStr "files included:".data bl ||
  containsStr "attachments:".data bl

/-! ## Validator (`scripts/validate-release.js`) -/

/-- Result of one Validator check: `{valid, error?, warning?}`. -/
structure VCheck where
  valid : Bool
  error : Option (List Char) := none
  warning : Option (List Char) := none
deriving DecidableEq

/-- Overall Validator result `{isValid, errors, warnings}`. -/
structure ValidationResult where
  isValid : Bool
  errors : List (List Char)
  warnings : List (List Char)
deriving DecidableEq

/-- The entries of the Validator's comma-split email input that fail the
email-format check (it filters for the offenders, never removes them from
the validated input). -/
def badEmails (s : List Char) : List (List Char) :=
  ((splitOnChar ',' s).map trimStr).filter (fun e => !isValidEmail e)

/-- `validateCustomerEmails` of `scripts/validate-release.js`. -/
def validateCustomerEmails (s : List Char) : VCheck :=
  if s.isEmpty then
    { valid := false, error := some "No customer emails found in release".data }
  else if (badEmails s).isEmpty then
    { valid := true }
  else
    { valid := false
      error := some ("Invalid email format(s): ".data ++ joinSep ", ".data (badEmails s)) }

/-- The space-split, trimmed tokens of the Validator's ticket input that
fail the ticket-format check. -/
def badTickets (s : List Char) : List (List Char) :=
  ((splitOnChar ' ' s).map trimStr).filter (fun t => !isValidJiraTicket t)

/-- `validateJiraTickets` of `scripts/validate-release.js`. -/
def validateJiraTickets (s : List Char) : VCheck :=
  if s.isEmpty then
    { valid := true, warning := some "No Jira tickets referenced".data }
  else if (badTickets s).isEmpty then
    { valid := true }
  else
    { valid := false
      error := some ("Invalid Jira ticket format(s): ".data ++ joinSep ", ".data (badTickets s)) }

/-- The fixed release-type enum of `validateReleaseType`. -/
def validTypes : List (List Char) :=
  ["major".data, "minor".data, "bugfix".data, "documentation".data, "update".data]

/-- `validateReleaseType` of `scripts/validate-release.js`. -/
def validateReleaseType (ty : List Char) : VCheck :=
  if ty.isEmpty then
    { valid := false, error := some "Release type could not be determined".data }
  else if validTypes.contains ty then
    { valid := true }
  else
    { valid := false
      error := some ("Invalid release type: ".data ++ ty ++ ". Valid types: ".data
        ++ joinSep ", ".data validTypes) }

/-- The Business-Impact markers tested by `validateReleaseContent`
(`/## Business Impact|Business Impact:|What's New:/i`), lower-cased. -/
def hasBusinessImpactMarker (body : List Char) : Bool :=
  let bl := lowerStr body
  containsStr "## business impact".data bl ||
  containsStr "business impact:".data bl ||
  containsStr ("what".data ++ [apos] ++ "s new:".data) bl

/-- The Technical-Changes markers tested by `validateReleaseContent`
(`/## Technical Changes|Technical Changes:|Changes Made:/i`), lower-cased. -/
def hasTechnicalChangesMarker (body : List Char) : Bool :=
  let bl := lowerStr body
  containsStr "## technical changes".data bl ||
  containsStr "technical changes:".data bl ||
  containsStr "changes made:".data bl

/-- `validateReleaseContent` of `scripts/validate-release.js`. -/
def validateReleaseContent (body : List Char) : VCheck :=
  if (trimStr body).isEmpty then
    { valid := false, error := some "Release body is empty".data }
  else if !hasBusinessImpactMarker body && !hasTechnicalChangesMarker body then
    { valid := false
      error := some "Release must contain either Business Impact or Technical Changes section".data }
  else
    { valid := true }

/-- The collection loop of `validate()`: walk the check results in order,
pushing the error of every failing check and every warning present, and
clearing `isValid` on any failure. -/
def collectChecks (vs : List VCheck) : ValidationResult :=
  vs.foldl
    (fun acc v =>
      let acc' :=
        if v.valid then acc
        else { acc with isValid := false, errors := acc.errors ++ [v.error.getD []] }
      match v.warning with
      | some w => { acc' with warnings := acc'.warnings ++ [w] }
      | none => acc')
    { isValid := true, errors := [], warnings := [] }

/-- `validate()` of `scripts/validate-release.js`: the four checks in their
fixed order, folded into one verdict. -/
def validate (customerEmails jiraTickets releaseType releaseBody : List Char) :
    ValidationResult :=
  collectChecks
    [validateCustomerEmails customerEmails,
     validateJiraTickets jiraTickets,
     validateReleaseType releaseType,
     validateReleaseContent releaseBody]

/-! ## Renderer (`ContentProcessor` in `scripts/test-setup.js`)

The five `typeLabels` emoji are stored in the checked-in file through a
Mac-Roman/UTF-8 transcoding accident (e.g. the bytes for `U+F8FF ü ö Ä`
where `🚀` was written); decoding the accident recovers the intended single
emoji code points `🚀 📦 🐛 📚 📋`, which are the ones used below and the
ones the repository's documentation shows. -/

/-- The fixed `typeLabels` lookup table of `generateEmailSubject`. -/
def typeLabels : List (List Char × List Char) :=
  [("major".data, "🚀 Major Release".data),
   ("minor".data, "📦 Minor Update".data),
   ("bugfix".data, "🐛 Bug Fix".data),
   ("documentation".data, "📚 Documentation Update".data),
   ("update".data, "📋 Update".data)]

/-- The label lookup `typeLabels[this.releaseType] || '📋 Update'`. -/
def lookupTypeLabel (ty : List Char) : List Char :=
  match typeLabels.find? (fun p => p.1 == ty) with
  | some p => p.2
  | none => "📋 Update".data

/-- `generateEmailSubject` of the `ContentProcessor`: label lookup, title
truncated to 47 characters plus `...` when longer than 50, then
`` `${typeLabel}: ${shortTitle}` ``. -/
def generateEmailSubject (releaseType releaseTitle : List Char) : List Char :=
  let typeLabel := lookupTypeLabel releaseType
  let shortTitle :=
    if releaseTitle.length > 50 then releaseTitle.take 47 ++ "...".data
    else releaseTitle
  typeLabel ++ ": ".data ++ shortTitle

/-- The original-case labels rendered by `generateFileList`, positionally
matching `fileMarkers`. -/
def fileLabels : List (List Char) :=
  ["Updated drawings (PDF)".data,
   "3D models (STEP/SolidWorks)".data,
   "Documentation updates".data,
   "Test results".data]

/-- `generateFileList` of the `ContentProcessor`: collect the labels of the
checkbox patterns that match, and render them as an HTML bullet list, or the
fixed "no specific files" paragraph when none match. -/
def generateFileList (body : List Char) : List Char :=
  let bl := lowerStr body
  let files :=
    (fileMarkers.zip fileLabels).filterMap
      (fun p => if checkboxPresent p.1 bl then some p.2 else none)
  if files.isEmpty then
    "<p>No specific files included in this release.</p>".data
  else
    "<ul class=\"file-list\">".data
      ++ (files.map (fun f => "<li>".data ++ f ++ "</li>".data)).flatten
      ++ "</ul>".data

/-- The opening title/greeting block of `generateEmailBody` (the first
template literal, whitespace included). -/
def titleBlock (title : List Char) : List Char :=
  "\n      <div class=\"section\">\n        <h1 class=\"section-header\">".data
  ++ title
  ++ "</h1>\n        <div class=\"content\">\n          <p>We".data ++ [apos]
  ++ "re pleased to announce the release of ".data ++ title
  ++ ".</p>\n        </div>\n      </div>\n    ".data

/-- The conditional "What's New" block of `generateEmailBody`. -/
def whatsNewBlock (businessImpact : List Char) : List Char :=
  "\n        <div class=\"section\">\n          <h2 class=\"section-header\">What".data
  ++ [apos]
  ++ "s New</h2>\n          <div class=\"content\">\n            ".data
  ++ businessImpact
  ++ "\n          </div>\n        </div>\n      ".data

/-- The conditional "Technical Changes" block of `generateEmailBody`. -/
def techChangesBlock (technicalChanges : List Char) : List Char :=
  ("\n        <div class=\"section\">\n          <h2 class=\"section-header\">"
    ++ "Technical Changes</h2>\n          <div class=\"content\">\n            ").data
  ++ technicalChanges
  ++ "\n          </div>\n        </div>\n      ".data

/-- The always-appended "Release Files" part of the closing template of
`generateEmailBody` (up to, and including, the six-space blank line that
separates it from "Complete Details"). -/
def releaseFilesBlock (fileList : List Char) : List Char :=
  ("\n      <div class=\"section\">\n        <h2 class=\"section-header\">"
    ++ "Release Files</h2>\n        <div class=\"content\">\n          ").data
  ++ fileList
  ++ "\n        </div>\n      </div>\n      \n".data

/-- The always-appended "Complete Details" part of the closing template of
`generateEmailBody`, carrying the release link. -/
def completeDetailsBlock (releaseUrl : List Char) : List Char :=
  ("      <div class=\"section\">\n        <h2 class=\"section-header\">"
    ++ "Complete Details</h2>\n        <div class=\"content\">\n          "
    ++ "<p>For complete documentation and file downloads, please visit:</p>"
    ++ "\n          <p><a href=\"").data
  ++ releaseUrl
  ++ ("\" class=\"release-link\">View full release documentation</a></p>"
    ++ "\n        </div>\n      </div>\n    ").data

/-- `generateEmailBody` of the `ContentProcessor`, with the two
markdown-converted section snippets passed in as `businessImpact` and
`technicalChanges` (their computation runs the section regexes and then the
`marked`/`cheerio` markdown-to-HTML conversion, a library external to the
repository; `if (businessImpact)` / `if (technicalChanges)` test string
truthiness, i.e. non-emptiness).  The sequential `emailBody +=` statements
of the source become the concatenation below. -/
def generateEmailBody (releaseTitle releaseBody releaseUrl businessImpact technicalChanges :
    List Char) : List Char :=
  let fileList := generateFileList releaseBody
  let b1 := titleBlock releaseTitle
  let b2 := if businessImpact.isEmpty then b1 else b1 ++ whatsNewBlock businessImpact
  let b3 := if technicalChanges.isEmpty then b2 else b2 ++ techChangesBlock technicalChanges
  b3 ++ releaseFilesBlock fileList ++ completeDetailsBlock releaseUrl

/-! ## Spec-side definitions used for refinement comparisons -/

/-- Follows the claim's words (not the source): attachment detection that
accepts only markers that "appear checked", i.e. `[x]` boxes, besides the
two generic labels.  Compared against `hasFileAttachments` below. -/
def hasFileAttachmentsCheckedOnly (body : List Char) : Bool :=
  let bl := lowerStr body
  (fileMarkers.any (fun m => containsStr ('[' :: 'x' :: ']' :: ' ' :: m) bl)) ||
  containsStr "files included:".data bl ||
  containsStr "attachments:".data bl

/-- Follows the claim's words: the email body as a list of whole sections in
fixed order — title/greeting, then "What's New" only when the
business-impact snippet is non-empty, then "Technical Changes" only when
that snippet is non-empty, then the always-present "Release Files" and
"Complete Details" sections.  A section with an empty snippet contributes no
element at all (no empty heading).  Compared against `generateEmailBody`. -/
def emailBodySections (title body url bi tc : List Char) : List (List Char) :=
  [titleBlock title]
  ++ (if bi.isEmpty then [] else [whatsNewBlock bi])
  ++ (if tc.isEmpty then [] else [techChangesBlock tc])
  ++ [releaseFilesBlock (generateFileList body), completeDetailsBlock url]

/-! ## Supporting lemmas -/

theorem enum_nodup {α : Type _} (l : List α) : l.enum.Nodup := by
  have h : (l.enum.map Prod.fst).Nodup := by
    rw [List.enum_eq_zip_range, List.map_fst_zip _ _ (by simp)]
    exact List.nodup_range _
  exact h.of_map

theorem enum_pairwise_fst {α : Type _} (l : List α) :
    List.Pairwise (fun p q => p.1 < q.1) l.enum := by
  have h : List.Pairwise (· < ·) (l.enum.map Prod.fst) := by
    rw [List.enum_eq_zip_range, List.map_fst_zip _ _ (by simp)]
    exact List.pairwise_lt_range _
  exact List.pairwise_map.mp h

theorem snd_mem_of_mem_enum {α : Type _} {l : List α} {p : ℕ × α} (h : p ∈ l.enum) :
    p.2 ∈ l := by
  rw [List.enum_eq_zip_range] at h
  obtain ⟨i, a⟩ := p
  exact (List.of_mem_zip h).2

theorem indexOf_eq_of_mem_dedup_pairs {l : List (List Char)} {p : ℕ × List Char}
    (h : p ∈ l.enum.filter (fun q => l.indexOf q.2 == q.1)) : l.indexOf p.2 = p.1 := by
  simpa using (List.mem_filter.mp h).2

theorem mem_of_mem_dedupFirst {l : List (List Char)} {t : List Char}
    (h : t ∈ dedupFirst l) : t ∈ l := by
  obtain ⟨p, hp, rfl⟩ := List.mem_map.mp h
  exact snd_mem_of_mem_enum (List.mem_filter.mp hp).1

theorem nodup_dedupFirst (l : List (List Char)) : (dedupFirst l).Nodup := by
  refine List.Nodup.map_on ?_ (((enum_nodup l).filter _))
  intro p hp q hq hpq
  have h1 := indexOf_eq_of_mem_dedup_pairs hp
  have h2 := indexOf_eq_of_mem_dedup_pairs hq
  obtain ⟨i, a⟩ := p
  obtain ⟨j, b⟩ := q
  simp only at hpq h1 h2
  subst hpq
  simp [← h1, ← h2]

theorem pairwise_indexOf_dedupFirst (l : List (List Char)) :
    List.Pairwise (fun a b => l.indexOf a < l.indexOf b) (dedupFirst l) := by
  refine List.pairwise_map.mpr ?_
  refine List.Pairwise.imp_of_mem ?_
    (((enum_pairwise_fst l).sublist (List.filter_sublist _)))
  intro p q hp hq hlt
  rwa [indexOf_eq_of_mem_dedup_pairs hp, indexOf_eq_of_mem_dedup_pairs hq]

theorem isSpace_eq_false_of_isDigit {c : Char} (h : c.isDigit = true) :
    isSpace c = false := by
  rcases hsp : isSpace c with _ | _
  · rfl
  · exfalso
    simp only [isSpace, Bool.or_eq_true, decide_eq_true_eq] at hsp
    rcases hsp with ((((rfl | rfl) | rfl) | rfl) | rfl) | rfl <;> simp_all [Char.isDigit]

/-- A validated ticket is `PDE-` plus digits: it is non-empty and contains
no whitespace character. -/
theorem valid_ticket_shape {t : List Char} (h : isValidJiraTicket t = true) :
    t ≠ [] ∧ ∀ c ∈ t, isSpace c = false := by
  unfold isValidJiraTicket at h
  split at h
  · next ds =>
    simp only [Bool.and_eq_true, List.all_eq_true] at h
    refine ⟨by simp, ?_⟩
    intro c hc
    simp only [List.mem_cons] at hc
    rcases hc with rfl | rfl | rfl | rfl | hc
    · decide
    · decide
    · decide
    · decide
    · exact isSpace_eq_false_of_isDigit (h.2 c hc)
  · simp at h

theorem valid_ticket_no_space_char {t : List Char} (h : isValidJiraTicket t = true) :
    ∀ c ∈ t, c ≠ ' ' := by
  intro c hc hcs
  have := (valid_ticket_shape h).2 c hc
  subst hcs
  simp [isSpace] at this

theorem dropWhile_eq_self_of_none {α : Type _} (p : α → Bool) (l : List α)
    (h : ∀ c ∈ l, p c = false) : l.dropWhile p = l := by
  cases l with
  | nil => rfl
  | cons c cs => simp [List.dropWhile_cons, h c (by simp)]

theorem trimStr_eq_self {t : List Char} (h : ∀ c ∈ t, isSpace c = false) :
    trimStr t = t := by
  unfold trimStr
  rw [dropWhile_eq_self_of_none _ _ h,
    dropWhile_eq_self_of_none _ _ (fun c hc => h c (List.mem_reverse.mp hc)),
    List.reverse_reverse]

theorem splitOnChar_of_not_mem {sep : Char} {t : List Char} (h : ∀ c ∈ t, c ≠ sep) :
    splitOnChar sep t = [t] := by
  induction t with
  | nil => rfl
  | cons c cs ih =>
    have hc : c ≠ sep := h c (by simp)
    rw [splitOnChar, if_neg hc, ih (fun d hd => h d (by simp [hd]))]

theorem splitOnChar_append {sep : Char} {t rest : List Char} (h : ∀ c ∈ t, c ≠ sep) :
    splitOnChar sep (t ++ sep :: rest) = t :: splitOnChar sep rest := by
  induction t with
  | nil => simp [splitOnChar]
  | cons c cs ih =>
    have hc : c ≠ sep := h c (by simp)
    rw [List.cons_append, splitOnChar, if_neg hc, ih (fun d hd => h d (by simp [hd]))]

theorem splitOnChar_joinSep {sep : Char} {ts : List (List Char)} (hne : ts ≠ [])
    (h : ∀ t ∈ ts, ∀ c ∈ t, c ≠ sep) :
    splitOnChar sep (joinSep [sep] ts) = ts := by
  induction ts with
  | nil => exact absurd rfl hne
  | cons t us ih =>
    cases us with
    | nil => exact splitOnChar_of_not_mem (h t (by simp))
    | cons u vs =>
      have hj : joinSep [sep] (t :: u :: vs) = t ++ sep :: joinSep [sep] (u :: vs) := by
        simp [joinSep]
      rw [hj, splitOnChar_append (h t (by simp)),
        ih (by simp) (fun w hw => h w (by simp [hw]))]

theorem joinSep_head_ne_nil {sep t : List Char} {ts : List (List Char)}
    (hne : t ≠ []) : joinSep sep (t :: ts) ≠ [] := by
  cases ts with
  | nil => simpa [joinSep]
  | cons u vs => simp [joinSep, hne]

/-- Feeding a non-empty space-join of well-formed tickets back into the
Validator's ticket check passes cleanly. -/
theorem validateJiraTickets_joinSep {tks : List (List Char)} (hne : tks ≠ [])
    (hv : ∀ t ∈ tks, isValidJiraTicket t = true) :
    validateJiraTickets (joinSep [' '] tks) = { valid := true } := by
  obtain ⟨t, ts, rfl⟩ := List.exists_cons_of_ne_nil hne
  have htv := hv t (by simp)
  have hjoin_ne : joinSep [' '] (t :: ts) ≠ [] :=
    joinSep_head_ne_nil (valid_ticket_shape htv).1
  have hsplit : splitOnChar ' ' (joinSep [' '] (t :: ts)) = t :: ts :=
    splitOnChar_joinSep (by simp) (fun u hu => valid_ticket_no_space_char (hv u hu))
  have htrim : (t :: ts).map trimStr = t :: ts := by
    have h0 : ∀ u ∈ t :: ts, trimStr u = u := fun u hu =>
      trimStr_eq_self ((valid_ticket_shape (hv u hu)).2)
    simpa using List.map_congr_left h0
  have hbad : badTickets (joinSep [' '] (t :: ts)) = [] := by
    unfold badTickets
    rw [hsplit, htrim]
    exact List.filter_eq_nil_iff.mpr (fun u hu => by simp [hv u hu])
  unfold validateJiraTickets
  rw [if_neg (by simpa using hjoin_ne), hbad]
  simp

theorem tryPDE_valid {s t : List Char} (h : tryPDE s = some t) :
    isValidJiraTicket t = true := by
  unfold tryPDE at h
  split at h
  · next rest =>
    by_cases hds : (rest.takeWhile Char.isDigit).isEmpty
    · simp [hds] at h
    · rw [if_neg hds] at h
      injection h with h
      subst h
      simp only [isValidJiraTicket, Bool.and_eq_true, List.all_eq_true]
      exact ⟨by simpa using hds, fun c hc => List.mem_takeWhile_imp hc⟩
  · exact absurd h (by simp)

theorem scanInline_valid {body : List Char} :
    ∀ t ∈ scanInline body, isValidJiraTicket t = true := by
  induction body with
  | nil => simp [scanInline]
  | cons c cs ih =>
    intro t ht
    rw [scanInline] at ht
    rcases hp : tryPDE (c :: cs) with _ | tick
    · rw [hp] at ht
      exact ih t ht
    · rw [hp] at ht
      rcases List.mem_cons.mp ht with rfl | ht'
      · exact tryPDE_valid hp
      · exact ih t ht'

/-- Every ticket kept by the labeled-path post-processing passes the format
check (it is literally the `filter` predicate). -/
theorem processTickets_valid {cap : List Char} :
    ∀ t ∈ processTickets cap, isValidJiraTicket t = true :=
  fun _ ht => (List.mem_filter.mp ht).2

theorem extractJiraTicketsFrom_nil (body : List Char) :
    extractJiraTicketsFrom [] body = joinSep [' '] (dedupFirst (scanInline body)) :=
  rfl

theorem extractJiraTicketsFrom_cons (alts : List (List Char))
    (more : List (List (List Char))) (body : List Char) :
    extractJiraTicketsFrom (alts :: more) body =
      match matchLabeled alts body with
      | some cap =>
        if (processTickets cap).isEmpty then extractJiraTicketsFrom more body
        else joinSep [' '] (processTickets cap)
      | none => extractJiraTicketsFrom more body :=
  rfl

/-- A non-empty list of well-formed tickets space-joins to a non-empty
string that the ticket check accepts cleanly. -/
theorem validateJiraTickets_joinSep_ne {tks : List (List Char)} (hne : tks ≠ [])
    (hv : ∀ t ∈ tks, isValidJiraTicket t = true) :
    joinSep [' '] tks ≠ [] ∧
      validateJiraTickets (joinSep [' '] tks) = { valid := true } := by
  obtain ⟨t, ts, rfl⟩ := List.exists_cons_of_ne_nil hne
  exact ⟨joinSep_head_ne_nil (valid_ticket_shape (hv t (by simp))).1,
    validateJiraTickets_joinSep hne hv⟩

/-- The Validator's ticket check always accepts the Parser's ticket output:
cleanly when the output is non-empty, with only the "no tickets" warning
when it is empty. -/
theorem validateJiraTickets_extractFrom (pats : List (List (List Char)))
    (body : List Char) :
    validateJiraTickets (extractJiraTicketsFrom pats body) =
      if (extractJiraTicketsFrom pats body).isEmpty then
        { valid := true, warning := some "No Jira tickets referenced".data }
      else { valid := true } := by
  induction pats with
  | nil =>
    rw [extractJiraTicketsFrom_nil]
    rcases hd : dedupFirst (scanInline body) with _ | ⟨t, ts⟩
    · simp [joinSep, validateJiraTickets]
    · have hv : ∀ u ∈ t :: ts, isValidJiraTicket u = true := fun u hu =>
        scanInline_valid u (mem_of_mem_dedupFirst (hd ▸ hu))
      obtain ⟨hne, hval⟩ := validateJiraTickets_joinSep_ne (by simp) hv
      rw [hval, if_neg (by simpa using hne)]
  | cons alts more ih =>
    rw [extractJiraTicketsFrom_cons]
    rcases hm : matchLabeled alts body with _ | cap
    · exact ih
    · simp only
      rcases hp : (processTickets cap).isEmpty with _ | _
      · simp only [Bool.false_eq_true, if_false]
        have hple : processTickets cap ≠ [] := by simpa using hp
        obtain ⟨hne, hval⟩ :=
          validateJiraTickets_joinSep_ne hple (fun u hu => processTickets_valid u hu)
        rw [hval, if_neg (by simpa using hne)]
      · simpa using ih

/-- Closed form of the `validate()` collection loop: `isValid` is the
conjunction of the check verdicts, `errors` collects, in order, the error of
every failing check, and `warnings` collects every warning present. -/
theorem collectChecks_spec (vs : List VCheck) :
    collectChecks vs =
      { isValid := vs.all (fun v => v.valid)
        errors := (vs.filter (fun v => !v.valid)).map (fun v => v.error.getD [])
        warnings := vs.filterMap (fun v => v.warning) } := by
  have general : ∀ (vs : List VCheck) (acc : ValidationResult),
      vs.foldl
        (fun acc v =>
          let acc' :=
            if v.valid then acc
            else { acc with isValid := false, errors := acc.errors ++ [v.error.getD []] }
          match v.warning with
          | some w => { acc' with warnings := acc'.warnings ++ [w] }
          | none => acc') acc =
      { isValid := acc.isValid && vs.all (fun v => v.valid)
        errors := acc.errors ++ (vs.filter (fun v => !v.valid)).map (fun v => v.error.getD [])
        warnings := acc.warnings ++ vs.filterMap (fun v => v.warning) } := by
    intro vs
    induction vs with
    | nil => intro acc; simp
    | cons v vs ih =>
      intro acc
      rw [List.foldl_cons, ih]
      rcases v with ⟨valid, error, warning⟩
      rcases valid with _ | _ <;> rcases warning with _ | w <;>
        simp [List.filter_cons, List.filterMap_cons, Bool.and_assoc]
  rw [collectChecks, general]
  simp

theorem extractCustomerEmailsFrom_cons (alts : List (List Char))
    (more : List (List (List Char))) (body : List Char) :
    extractCustomerEmailsFrom (alts :: more) body =
      match matchLabeled alts body with
      | some cap =>
        if (processEmails cap).isEmpty then extractCustomerEmailsFrom more body
        else joinSep [','] (processEmails cap)
      | none => extractCustomerEmailsFrom more body :=
  rfl

/-- Closed form of `validateJiraTickets` away from the empty input. -/
theorem validateJiraTickets_of_ne_nil {s : List Char} (hs : s ≠ []) :
    validateJiraTickets s =
      if (badTickets s).isEmpty then { valid := true }
      else
        { valid := false
          error := some ("Invalid Jira ticket format(s): ".data
            ++ joinSep ", ".data (badTickets s)) } := by
  unfold validateJiraTickets
  rw [if_neg (by simpa using hs)]

/-- Closed form of `validateCustomerEmails` away from the empty input. -/
theorem validateCustomerEmails_of_ne_nil {s : List Char} (hs : s ≠ []) :
    validateCustomerEmails s =
      if (badEmails s).isEmpty then { valid := true }
      else
        { valid := false
          error := some ("Invalid email format(s): ".data
            ++ joinSep ", ".data (badEmails s)) } := by
  unfold validateCustomerEmails
  rw [if_neg (by simpa using hs)]

/-! ## Claim theorems -/

/-- C10 (confirmed): Parser output always passes the Validator's
corresponding format checks.  The ticket check on `extractJiraTickets body`
is always valid — cleanly when the output is non-empty (every emitted token
is a well-formed `PDE-` ticket and the tokens are single-space-joined), and
with only the "no tickets referenced" warning when the output is empty; and
the release-type check on `determineReleaseType title body` is always valid,
because the Parser only ever returns members of the fixed enum. -/
theorem parser_output_passes_validator (title body : List Char) :
    (validateJiraTickets (extractJiraTickets body) =
      if (extractJiraTickets body).isEmpty then
        { valid := true, warning := some "No Jira tickets referenced".data }
      else { valid := true }) ∧
    validateReleaseType (determineReleaseType title body) = { valid := true } := by
  constructor
  · exact validateJiraTickets_extractFrom ticketPatterns body
  · simp only [determineReleaseType]
    split_ifs <;> decide

/-- C6 (confirmed): the Validator's ticket check accepts the empty input
with exactly the "No Jira tickets referenced" warning; a non-empty input is
valid exactly when every space-split (and trimmed) token passes the ticket
format check, and otherwise the check fails with the single error naming
exactly the offending tokens, comma-joined. -/
theorem validateJiraTickets_spec :
    validateJiraTickets [] =
      { valid := true, warning := some "No Jira tickets referenced".data } ∧
    ∀ s : List Char, s ≠ [] →
      (((validateJiraTickets s).valid = true) ↔
        ∀ t ∈ (splitOnChar ' ' s).map trimStr, isValidJiraTicket t = true) ∧
      (badTickets s ≠ [] →
        validateJiraTickets s =
          { valid := false
            error := some ("Invalid Jira ticket format(s): ".data
              ++ joinSep ", ".data (badTickets s)) }) := by
  refine ⟨rfl, ?_⟩
  intro s hs
  have hiff : badTickets s = [] ↔
      ∀ t ∈ (splitOnChar ' ' s).map trimStr, isValidJiraTicket t = true := by
    unfold badTickets
    rw [List.filter_eq_nil_iff]
    constructor
    · intro h t ht
      have := h t ht
      simpa using this
    · intro h t ht
      simp [h t ht]
  constructor
  · rw [validateJiraTickets_of_ne_nil hs]
    rcases hb : (badTickets s).isEmpty with _ | _
    · simp only [Bool.false_eq_true, if_false]
      rw [List.isEmpty_eq_false] at hb
      simpa using (fun h => hb (hiff.mpr h))
    · simp only [if_true]
      rw [List.isEmpty_iff] at hb
      simpa using hiff.mp hb
  · intro hbne
    rw [validateJiraTickets_of_ne_nil hs, if_neg (by simpa using hbne)]

/-- C5 (confirmed): the Validator's email check rejects the empty input; a
non-empty input is valid exactly when no comma-split (trimmed) entry fails
the email format check, and any failure produces the single error naming
exactly the offending entries (the check never filters bad entries out —
one bad entry invalidates the whole input, unlike the Parser's
filter-and-keep behaviour).  For the input `invalid-email` the check fails
and the error lists that token. -/
theorem validateCustomerEmails_spec :
    (validateCustomerEmails []).valid = false ∧
    (∀ s : List Char, s ≠ [] →
      (((validateCustomerEmails s).valid = true) ↔ badEmails s = []) ∧
      (badEmails s ≠ [] →
        validateCustomerEmails s =
          { valid := false
            error := some ("Invalid email format(s): ".data
              ++ joinSep ", ".data (badEmails s)) })) ∧
    validateCustomerEmails "invalid-email".data =
      { valid := false, error := some "Invalid email format(s): invalid-email".data } := by
  refine ⟨rfl, ?_, by decide⟩
  intro s hs
  constructor
  · rw [validateCustomerEmails_of_ne_nil hs]
    rcases hb : (badEmails s).isEmpty with _ | _
    · simp only [Bool.false_eq_true, if_false]
      rw [List.isEmpty_eq_false] at hb
      simpa using hb
    · simp only [if_true]
      rw [List.isEmpty_iff] at hb
      simpa using hb
  · intro hbne
    rw [validateCustomerEmails_of_ne_nil hs, if_neg (by simpa using hbne)]

/-- Witness for C5: the second conjunct applied at the concrete input
`invalid-email`, whose single entry fails the format check. -/
theorem validateCustomerEmails_spec_witness :
    ((validateCustomerEmails "invalid-email".data).valid = true) ↔
      badEmails "invalid-email".data = [] :=
  (validateCustomerEmails_spec.2.1 "invalid-email".data (by decide)).1

/-- Witness for C6: the non-empty case applied at the concrete input
`PDE-7`, a single well-formed token. -/
theorem validateJiraTickets_spec_witness :
    ((validateJiraTickets "PDE-7".data).valid = true) ↔
      ∀ t ∈ (splitOnChar ' ' "PDE-7".data).map trimStr, isValidJiraTicket t = true :=
  (validateJiraTickets_spec.2 "PDE-7".data (by decide)).1

/-- C7 (confirmed): the Validator's overall verdict is the conjunction of
its four independent checks, in their fixed order, with each failing check
contributing its error string; in particular, for an empty raw body the
content check fails, `isValid` is false, and the errors contain the
"Release body is empty" message, which mentions "empty". -/
theorem validate_spec (ce jt rt body : List Char) :
    (validate ce jt rt body).isValid =
      ((validateCustomerEmails ce).valid && (validateJiraTickets jt).valid &&
       (validateReleaseType rt).valid && (validateReleaseContent body).valid) ∧
    (validate ce jt rt body).errors =
      ([validateCustomerEmails ce, validateJiraTickets jt, validateReleaseType rt,
        validateReleaseContent body].filter (fun v => !v.valid)).map
          (fun v => v.error.getD []) ∧
    (body = [] →
      (validate ce jt rt body).isValid = false ∧
      "Release body is empty".data ∈ (validate ce jt rt body).errors ∧
      containsStr "empty".data "Release body is empty".data = true) := by
  have h := collectChecks_spec
    [validateCustomerEmails ce, validateJiraTickets jt, validateReleaseType rt,
     validateReleaseContent body]
  refine ⟨?_, ?_, ?_⟩
  · rw [validate, h]
    simp [Bool.and_assoc]
  · rw [validate, h]
  · intro hbody
    subst hbody
    have hc : validateReleaseContent [] =
        { valid := false, error := some "Release body is empty".data } := by decide
    refine ⟨?_, ?_, by decide⟩
    · rw [validate, h]
      simp [hc]
    · rw [validate, h]
      have hmem : validateReleaseContent [] ∈
          ([validateCustomerEmails ce, validateJiraTickets jt, validateReleaseType rt,
            validateReleaseContent []].filter (fun v => !v.valid)) :=
        List.mem_filter.mpr ⟨by simp, by rw [hc]; rfl⟩
      have hin := List.mem_map_of_mem (fun v => v.error.getD []) hmem
      simpa [hc] using hin

/-- Witness for C7: the empty-body conclusion at concrete inputs. -/
theorem validate_spec_witness :
    (validate "a@b.com".data [] "major".data []).isValid = false ∧
    "Release body is empty".data ∈ (validate "a@b.com".data [] "major".data []).errors := by
  have h := (validate_spec "a@b.com".data [] "major".data []).2.2 rfl
  exact ⟨h.1, h.2.1⟩

/-- C1 counterexample: on the body
`Customer Email(s): bademail\nEmails: a@b.com` the first email pattern
matches (capturing `bademail`), yet the overall result is decided by the
later `Emails:` pattern — running the loop with only the first pattern
yields `""` while the full loop yields `a@b.com`.  So a pattern match alone
does not stop the chain: later patterns are consulted when the matched text
yields no valid entries. -/
theorem extract_first_match_not_decisive :
    (matchLabeled ["customer email(s):".data]
      "Customer Email(s): bademail\nEmails: a@b.com".data).isSome = true ∧
    extractCustomerEmailsFrom [["customer email(s):".data]]
      "Customer Email(s): bademail\nEmails: a@b.com".data = [] ∧
    extractCustomerEmails "Customer Email(s): bademail\nEmails: a@b.com".data
      = "a@b.com".data := by
  decide

/-- C1 as amended: for both fields, the first pattern whose match yields at
least one valid entry decides the result — later patterns are then never
consulted (the result is independent of them) — while a pattern that
matches but yields no valid entries is skipped and the later patterns are
consulted. -/
theorem extract_first_nonempty_match_wins :
    (∀ (alts : List (List Char)) (more more' : List (List (List Char)))
      (body cap : List Char), matchLabeled alts body = some cap →
      ((processEmails cap).isEmpty = false →
        extractCustomerEmailsFrom (alts :: more) body
          = joinSep [','] (processEmails cap) ∧
        extractCustomerEmailsFrom (alts :: more) body
          = extractCustomerEmailsFrom (alts :: more') body) ∧
      ((processEmails cap).isEmpty = true →
        extractCustomerEmailsFrom (alts :: more) body
          = extractCustomerEmailsFrom more body)) ∧
    (∀ (alts : List (List Char)) (more more' : List (List (List Char)))
      (body cap : List Char), matchLabeled alts body = some cap →
      ((processTickets cap).isEmpty = false →
        extractJiraTicketsFrom (alts :: more) body
          = joinSep [' '] (processTickets cap) ∧
        extractJiraTicketsFrom (alts :: more) body
          = extractJiraTicketsFrom (alts :: more') body) ∧
      ((processTickets cap).isEmpty = true →
        extractJiraTicketsFrom (alts :: more) body
          = extractJiraTicketsFrom more body)) := by
  constructor
  · intro alts more more' body cap hm
    constructor
    · intro hne
      have h1 : extractCustomerEmailsFrom (alts :: more) body
          = joinSep [','] (processEmails cap) := by
        rw [extractCustomerEmailsFrom_cons, hm]
        simp only [hne, Bool.false_eq_true, if_false]
      have h2 : extractCustomerEmailsFrom (alts :: more') body
          = joinSep [','] (processEmails cap) := by
        rw [extractCustomerEmailsFrom_cons, hm]
        simp only [hne, Bool.false_eq_true, if_false]
      exact ⟨h1, h1.trans h2.symm⟩
    · intro he
      rw [extractCustomerEmailsFrom_cons, hm]
      simp only [he, if_true]
  · intro alts more more' body cap hm
    constructor
    · intro hne
      have h1 : extractJiraTicketsFrom (alts :: more) body
          = joinSep [' '] (processTickets cap) := by
        rw [extractJiraTicketsFrom_cons, hm]
        simp only [hne, Bool.false_eq_true, if_false]
      have h2 : extractJiraTicketsFrom (alts :: more') body
          = joinSep [' '] (processTickets cap) := by
        rw [extractJiraTicketsFrom_cons, hm]
        simp only [hne, Bool.false_eq_true, if_false]
      exact ⟨h1, h1.trans h2.symm⟩
    · intro he
      rw [extractJiraTicketsFrom_cons, hm]
      simp only [he, if_true]

/-- Witness for C1 (amended): the email half applied at a concrete body
where the `To:` pattern matches with one valid entry. -/
theorem extract_first_nonempty_match_wins_witness :
    extractCustomerEmailsFrom [["to:".data], ["emails:".data]] "To: a@b.com".data
      = joinSep [','] (processEmails "a@b.com".data) :=
  ((extract_first_nonempty_match_wins.1 ["to:".data] [["emails:".data]] []
    "To: a@b.com".data "a@b.com".data (by decide)).1 (by decide)).1

/-- C2 counterexample: the labeled-field path does not de-duplicate — on the
body `Jira Tickets: PDE-1 PDE-1` the extractor returns the duplicate-bearing
list `PDE-1 PDE-1`. -/
theorem extractJiraTickets_labeled_duplicates :
    extractJiraTickets "Jira Tickets: PDE-1 PDE-1".data = "PDE-1 PDE-1".data ∧
    ¬ (splitOnChar ' '
        (extractJiraTickets "Jira Tickets: PDE-1 PDE-1".data)).Nodup := by
  decide

/-- C2 as amended: the inline-scan path (and only that path) de-duplicates —
`dedupFirst` keeps exactly the first occurrences, so its output has no
duplicates, draws its elements from the scan, and lists them in
first-occurrence order, and every inline-scanned token is a validated
ticket; the labeled-field path returns its validated tokens as-is
(duplicates included, in field order). -/
theorem extractJiraTickets_dedup_spec :
    (∀ l : List (List Char),
      (dedupFirst l).Nodup ∧
      (∀ t ∈ dedupFirst l, t ∈ l) ∧
      List.Pairwise (fun a b => l.indexOf a < l.indexOf b) (dedupFirst l)) ∧
    (∀ body : List Char,
      extractJiraTicketsFrom [] body
        = joinSep [' '] (dedupFirst (scanInline body)) ∧
      ∀ t ∈ scanInline body, isValidJiraTicket t = true) ∧
    (∀ (alts : List (List Char)) (more : List (List (List Char)))
      (body cap : List Char),
      matchLabeled alts body = some cap → (processTickets cap).isEmpty = false →
      extractJiraTicketsFrom (alts :: more) body
        = joinSep [' '] (processTickets cap) ∧
      ∀ t ∈ processTickets cap, isValidJiraTicket t = true) := by
  refine ⟨?_, ?_, ?_⟩
  · intro l
    exact ⟨nodup_dedupFirst l, fun t ht => mem_of_mem_dedupFirst ht,
      pairwise_indexOf_dedupFirst l⟩
  · intro body
    exact ⟨extractJiraTicketsFrom_nil body, scanInline_valid⟩
  · intro alts more body cap hm hne
    refine ⟨?_, processTickets_valid⟩
    rw [extractJiraTicketsFrom_cons, hm]
    simp only [hne, Bool.false_eq_true, if_false]

/-- Witness for C2 (amended): the labeled-path conclusion at a concrete
body whose field holds two distinct valid tickets. -/
theorem extractJiraTickets_dedup_spec_witness :
    extractJiraTicketsFrom [["jira tickets:".data, "jira ticket:".data]]
      "Jira Tickets: PDE-3 PDE-5".data
      = joinSep [' '] (processTickets "PDE-3 PDE-5".data) :=
  (extractJiraTickets_dedup_spec.2.2 ["jira tickets:".data, "jira ticket:".data]
    [] "Jira Tickets: PDE-3 PDE-5".data "PDE-3 PDE-5".data
    (by decide) (by decide)).1

/-- C3 counterexample: the pair title `bug`, body `major` contains both
"major" and "bug", yet classifies as `bugfix`, not `major` — the major
category looks for "major" in the *title* or the phrase "major release" in
the body, so a bare "major" in the body does not fire it. -/
theorem determineReleaseType_major_bug_counterexample :
    containsStr "major".data (lowerStr ("bug".data ++ "major".data)) = true ∧
    containsStr "bug".data (lowerStr ("bug".data ++ "major".data)) = true ∧
    determineReleaseType "bug".data "major".data = "bugfix".data ∧
    determineReleaseType "bug".data "major".data ≠ "major".data := by
  decide

/-- C3 as amended: the scan is case-insensitive (the result depends only on
the lower-cased title and body) with fixed precedence, where the major
category checks "major" in the title or "major release" in the body; in
particular every pair whose *title* contains "major" classifies as `major`
(even when "bug" also occurs), and likewise every pair whose body contains
the phrase "major release". -/
theorem determineReleaseType_spec :
    (∀ title body : List Char, containsStr "major".data (lowerStr title) = true →
      determineReleaseType title body = "major".data) ∧
    (∀ title body : List Char,
      containsStr "major release".data (lowerStr body) = true →
      determineReleaseType title body = "major".data) ∧
    (∀ t t' b b' : List Char, lowerStr t = lowerStr t' → lowerStr b = lowerStr b' →
      determineReleaseType t b = determineReleaseType t' b') := by
  refine ⟨?_, ?_, ?_⟩
  · intro title body h
    simp [determineReleaseType, h]
  · intro title body h
    simp [determineReleaseType, h]
  · intro t t' b b' ht hb
    simp only [determineReleaseType, ht, hb]

/-- Witness for C3 (amended): a title containing both "Major" and "bug"
classifies as `major`. -/
theorem determineReleaseType_spec_witness :
    determineReleaseType "Major release with bug fixes".data "".data
      = "major".data :=
  determineReleaseType_spec.1 "Major release with bug fixes".data "".data
    (by decide)

/-- C4 counterexample: the checkbox regexes use the character class
`[ x]`, so an *unchecked* marker alone already makes `hasFileAttachments`
true — on `- [ ] Updated drawings (PDF)` the code returns true while the
claim's checked-only reading returns false. -/
theorem hasFileAttachments_unchecked_counterexample :
    hasFileAttachments "- [ ] Updated drawings (PDF)".data = true ∧
    hasFileAttachmentsCheckedOnly "- [ ] Updated drawings (PDF)".data = false := by
  decide

/-- C4 as amended: `hasFileAttachments` is true exactly when one of the four
markers appears with a checkbox — checked `[x]` *or* unchecked `[ ]` — or
one of the generic `Files Included:` / `Attachments:` labels is present; in
particular an unchecked marker alone already makes it true. -/
theorem hasFileAttachments_spec :
    (∀ body : List Char,
      hasFileAttachments body = true ↔
        ((∃ m ∈ fileMarkers, checkboxPresent m (lowerStr body) = true) ∨
         containsStr "files included:".data (lowerStr body) = true ∨
         containsStr "attachments:".data (lowerStr body) = true)) ∧
    (∀ body m : List Char, m ∈ fileMarkers →
      containsStr ('[' :: ' ' :: ']' :: ' ' :: m) (lowerStr body) = true →
      hasFileAttachments body = true) := by
  have hiff : ∀ body : List Char,
      hasFileAttachments body = true ↔
        ((∃ m ∈ fileMarkers, checkboxPresent m (lowerStr body) = true) ∨
         containsStr "files included:".data (lowerStr body) = true ∨
         containsStr "attachments:".data (lowerStr body) = true) := by
    intro body
    simp [hasFileAttachments, List.any_eq_true, or_assoc]
  refine ⟨hiff, ?_⟩
  intro body m hm hc
  exact (hiff body).mpr (Or.inl ⟨m, hm, by simp [checkboxPresent, hc]⟩)

/-- Witness for C4 (amended): an unchecked drawings marker makes the check
true. -/
theorem hasFileAttachments_spec_witness :
    hasFileAttachments "- [ ] Test results".data = true :=
  hasFileAttachments_spec.2 "- [ ] Test results".data "test results".data
    (by decide) (by decide)

/-- Every label the subject lookup can produce is at most 22 characters. -/
theorem lookupTypeLabel_length (ty : List Char) :
    (lookupTypeLabel ty).length ≤ 22 := by
  unfold lookupTypeLabel
  rcases hf : typeLabels.find? (fun p => p.1 == ty) with _ | p
  · rw [hf]
    decide
  · rw [hf]
    show p.2.length ≤ 22
    have hp := List.mem_of_find?_eq_some hf
    simp only [typeLabels, List.mem_cons, List.not_mem_nil, or_false] at hp
    rcases hp with rfl | rfl | rfl | rfl | rfl <;> decide

/-- C8 (confirmed): `generateEmailSubject` uses the fixed lookup table (with
the `📋 Update` default for unknown keys), truncates the title to 47
characters plus `...` exactly when it is longer than 50 (so the title part
is at most 50 characters), renders `"{emoji} {label}: {title}"`, and its
output length is bounded (by 74 code points) regardless of title length. -/
theorem generateEmailSubject_spec :
    (∀ ty title : List Char, (generateEmailSubject ty title).length ≤ 74) ∧
    (∀ ty title : List Char, title.length ≤ 50 →
      generateEmailSubject ty title = lookupTypeLabel ty ++ ": ".data ++ title) ∧
    (∀ ty title : List Char, title.length > 50 →
      generateEmailSubject ty title
        = lookupTypeLabel ty ++ ": ".data ++ (title.take 47 ++ "...".data) ∧
      (title.take 47 ++ "...".data).length = 50) ∧
    (lookupTypeLabel "major".data = "🚀 Major Release".data ∧
     lookupTypeLabel "minor".data = "📦 Minor Update".data ∧
     lookupTypeLabel "bugfix".data = "🐛 Bug Fix".data ∧
     lookupTypeLabel "documentation".data = "📚 Documentation Update".data ∧
     lookupTypeLabel "update".data = "📋 Update".data) ∧
    (∀ ty : List Char, (∀ p ∈ typeLabels, p.1 ≠ ty) →
      lookupTypeLabel ty = "📋 Update".data) := by
  refine ⟨?_, ?_, ?_, by decide, ?_⟩
  · intro ty title
    have hlab := lookupTypeLabel_length ty
    simp only [generateEmailSubject]
    split_ifs with h
    · simp only [List.length_append, List.length_take]
      have : min 47 title.length = 47 := by omega
      simp only [this]
      simp at hlab ⊢
      omega
    · simp only [List.length_append]
      simp at hlab ⊢
      omega
  · intro ty title h
    simp only [generateEmailSubject]
    rw [if_neg (by omega)]
  · intro ty title h
    constructor
    · simp only [generateEmailSubject]
      rw [if_pos h]
    · simp only [List.length_append, List.length_take]
      have : min 47 title.length = 47 := by omega
      simp [this]
  · intro ty h
    unfold lookupTypeLabel
    rw [List.find?_eq_none.mpr (fun p hp => by simpa using h p hp)]

/-- Witness for C8: the truncation branch at a 56-character title. -/
theorem generateEmailSubject_spec_witness :
    generateEmailSubject "major".data
        "A very long release title that goes past fifty characters".data
      = lookupTypeLabel "major".data ++ ": ".data
        ++ ("A very long release title that goes past fifty characters".data.take 47
          ++ "...".data) :=
  ((generateEmailSubject_spec.2.2.1 "major".data
    "A very long release title that goes past fifty characters".data
    (by decide)).1)

/-- C9 (confirmed): `generateEmailBody` is exactly the concatenation of the
whole-section list `emailBodySections` — title/greeting first, then a
"What's New" section only when the business-impact snippet is non-empty,
then a "Technical Changes" section only when that snippet is non-empty,
then the always-present "Release Files" and "Complete Details" sections
(the latter carrying the release link); an empty snippet contributes no
section at all, so no empty heading is ever rendered. -/
theorem generateEmailBody_spec :
    (∀ title body url bi tc : List Char,
      generateEmailBody title body url bi tc
        = (emailBodySections title body url bi tc).flatten) ∧
    (∀ title body url : List Char,
      generateEmailBody title body url [] []
        = titleBlock title ++ releaseFilesBlock (generateFileList body)
          ++ completeDetailsBlock url) ∧
    (∀ title body url bi tc : List Char,
      bi.isEmpty = false → tc.isEmpty = false →
      generateEmailBody title body url bi tc
        = titleBlock title ++ whatsNewBlock bi ++ techChangesBlock tc
          ++ releaseFilesBlock (generateFileList body)
          ++ completeDetailsBlock url) := by
  refine ⟨?_, ?_, ?_⟩
  · intro title body url bi tc
    rcases hbi : bi.isEmpty with _ | _ <;> rcases htc : tc.isEmpty with _ | _ <;>
      simp [generateEmailBody, emailBodySections, hbi, htc, List.append_assoc]
  · intro title body url
    simp [generateEmailBody]
  · intro title body url bi tc hbi htc
    simp [generateEmailBody, hbi, htc, List.append_assoc]

/-- Witness for C9: the both-sections-present conclusion at concrete
snippets. -/
theorem generateEmailBody_spec_witness :
    generateEmailBody "T".data "B".data "U".data "I".data "C".data
      = titleBlock "T".data ++ whatsNewBlock "I".data
        ++ techChangesBlock "C".data
        ++ releaseFilesBlock (generateFileList "B".data)
        ++ completeDetailsBlock "U".data :=
  generateEmailBody_spec.2.2 "T".data "B".data "U".data "I".data "C".data
    (by decide) (by decide)

end ReleaseAutomation
